import Mathlib

/-!
Verification of the gh-jira plugin core (`src/bin/jira.js`): the symbolic
resolution pipeline (`getUpdatePayload_`), the transition workflow
(`transition`, `expandTransitionFields_`, `findFirstArrayValue_`), the
empty-value pruning walk (`deleteObjectEmptyValues_`), and the `assign`
status-code table from `run`.

JavaScript dynamic values are embedded as the tree `JVal`.  Objects and
arrays are both represented as ordered association lists keyed by strings
(an array's keys are its indices "0", "1", ...): this is faithful to every
operation the code performs on them (`Object.keys`, property read/write,
`delete`), which never distinguishes arrays from objects.
-/

namespace GhJira

/-- A JavaScript value as observed by the plugin: `jundef` is `undefined`,
`jnull` is `null`, and `jobj` covers both objects and arrays (keys in
insertion order). -/
inductive JVal where
  | jundef : JVal
  | jnull : JVal
  | jbool : Bool → JVal
  | jnum : Int → JVal
  | jstr : String → JVal
  | jobj : List (String × JVal) → JVal

/-- `Jira.prototype.deleteObjectEmptyValues_`, acting on the entry list of one
object.  For each key (in order): a value of `typeof === 'object'` (objects,
arrays and `null`) is recursed into; `null` makes `Object.keys` throw a
`TypeError`, modelled as `none`; a value strictly equal to `undefined` or to
`''` is deleted; every other value is kept. -/
def deleteObjectEmptyValues : List (String × JVal) → Option (List (String × JVal))
  | [] => some []
  | (_, JVal.jnull) :: _ => none
  | (k, JVal.jobj es) :: rest => do
      let es' ← deleteObjectEmptyValues es
      let rest' ← deleteObjectEmptyValues rest
      pure ((k, JVal.jobj es') :: rest')
  | (_, JVal.jundef) :: rest => deleteObjectEmptyValues rest
  | (k, JVal.jstr s) :: rest =>
      if s = "" then deleteObjectEmptyValues rest
      else do pure ((k, JVal.jstr s) :: (← deleteObjectEmptyValues rest))
  | (k, JVal.jbool b) :: rest => do pure ((k, JVal.jbool b) :: (← deleteObjectEmptyValues rest))
  | (k, JVal.jnum n) :: rest => do pure ((k, JVal.jnum n) :: (← deleteObjectEmptyValues rest))

mutual

/-- A value every key of which survives the pruning walk unchanged: no
`undefined`, no `null`, no empty string, recursively. -/
def PrunedV : JVal → Bool
  | JVal.jundef => false
  | JVal.jnull => false
  | JVal.jstr s => !(s = "")
  | JVal.jobj es => PrunedEntries es
  | _ => true

/-- `PrunedV` over an entry list. -/
def PrunedEntries : List (String × JVal) → Bool
  | [] => true
  | (_, v) :: rest => PrunedV v && PrunedEntries rest

end

mutual

/-- A value containing no `null` anywhere (the domain on which the pruning
walk cannot throw). -/
def NoNull : JVal → Bool
  | JVal.jnull => false
  | JVal.jobj es => NoNullEntries es
  | _ => true

/-- `NoNull` over an entry list. -/
def NoNullEntries : List (String × JVal) → Bool
  | [] => true
  | (_, v) :: rest => NoNull v && NoNullEntries rest

end

mutual

/-- A value tree holding at least one non-empty scalar leaf. -/
def hasNonEmptyLeaf : JVal → Bool
  | JVal.jundef => false
  | JVal.jnull => false
  | JVal.jstr s => !(s = "")
  | JVal.jobj es => hasNonEmptyLeafEntries es
  | _ => true

/-- `hasNonEmptyLeaf` over an entry list. -/
def hasNonEmptyLeafEntries : List (String × JVal) → Bool
  | [] => false
  | (_, v) :: rest => hasNonEmptyLeaf v || hasNonEmptyLeafEntries rest

end

example : deleteObjectEmptyValues [("a", JVal.jstr ""), ("b", JVal.jobj [("c", JVal.jundef)])]
    = some [("b", JVal.jobj [])] := by simp [deleteObjectEmptyValues]

example : deleteObjectEmptyValues [("a", JVal.jnull)] = none := by simp [deleteObjectEmptyValues]

/-- A remote entity as listed by the Jira API: a `name`/`id` pair
(issue type, priority, component, version, allowed field value). -/
structure Entity where
  name : String
  id : String
deriving Repr, DecidableEq

/-- JavaScript truthiness of an optional string command option
(`undefined` and `''` are falsy). -/
def truthy : Option String → Bool
  | none => false
  | some s => !(s = "")

/-- An optional string option as the JavaScript value it holds
(`undefined` when unsupplied). -/
def optJStr : Option String → JVal
  | none => JVal.jundef
  | some s => JVal.jstr s

/-- `Jira.prototype.findFirstArrayValue_(values, key, search)`: the first
element whose `key` attribute is strictly (`===`) equal to `search`; the
attribute projection may be missing (`none`).  `every` stops at the first
match, so this is exactly `List.find?`. -/
def findFirstArrayValue {α : Type} (values : List α) (nameOf : α → Option String)
    (search : Option String) : Option α :=
  values.find? (fun v => decide (nameOf v = search))

/-- The `getXByName_` helpers (`getIssueTypeByName_`, `getPriorityByName_`,
`getProjectComponentByName_`, `getVersionByName_`): fetch the listing, then
take the first exact `name` match.  When the remote listing fails, the
entity stays `undefined` (the caller then overwrites the error with its own
"No X found" hint, exactly as each callback in `getUpdatePayload_` does). -/
def resolveByName (listing : Except String (List Entity)) (search : Option String) :
    Option Entity :=
  match listing with
  | Except.ok l => findFirstArrayValue l (fun e => some e.name) search
  | Except.error _ => none

/-- One remote API call issued by a command pipeline (submission calls
carry the submitted payload). -/
inductive RCall where
  | listIssueTypes
  | getProject
  | listComponents
  | listPriorities
  | listVersions
  | listTransitions
  | findIssue
  | addNewIssue (payload : JVal)
  | updateIssue (payload : JVal)
  | transitionIssue (payload : JVal)

/-- Whether a call mutates the issue tracker (create, update or
transition submission). -/
def isSubmitCall : RCall → Bool
  | RCall.addNewIssue _ => true
  | RCall.updateIssue _ => true
  | RCall.transitionIssue _ => true
  | _ => false

/-- Whether a call is a priority listing. -/
def isListPriorities : RCall → Bool
  | RCall.listPriorities => true
  | _ => false

/-- Whether a call is a version listing. -/
def isListVersions : RCall → Bool
  | RCall.listVersions => true
  | _ => false

/-- The payload of the first `updateIssue` submission in a trace. -/
def firstUpdatePayload (calls : List RCall) : Option JVal :=
  calls.findSome? (fun c => match c with | RCall.updateIssue p => some p | _ => none)

/-- The payload of the first `addNewIssue` submission in a trace. -/
def firstCreatePayload (calls : List RCall) : Option JVal :=
  calls.findSome? (fun c => match c with | RCall.addNewIssue p => some p | _ => none)

/-- Outcome of an asynchronous pipeline: a value, an `err` handed to the
final callback, or a thrown `TypeError` (reading a property of
`undefined`/`null`), which `async.series` does not catch. -/
inductive PRes (α : Type) where
  | ok (a : α)
  | err (e : String)
  | crash

/-- The command options after `run`'s normalisation, as consumed by
`getUpdatePayload_`: `isNew` is `options.new`. -/
structure Options where
  isNew : Bool
  project : Option String
  type : Option String
  component : Option String
  priority : Option String
  version : Option String
  assignee : Option String
  reporter : Option String
  message : Option String
  title : Option String

/-- The remote listing endpoints consumed by `getUpdatePayload_`, each an
`Except` for the remote call's outcome. -/
structure Remote where
  issueTypes : Except String (List Entity)
  projectInfo : Except String Entity
  components : Except String (List Entity)
  priorities : Except String (List Entity)
  versions : Except String (List Entity)

/-- The per-project configuration defaults read in `run`
(`jiraConfig.default_issue_component[project]` etc.), already indexed by
the current project. -/
structure JiraDefaults where
  component : Option String
  type : Option String
  version : Option String

/-- `run`'s defaulting lines: `options.component = options.component ||
jiraConfig.default_issue_component[options.project]`, and likewise for
`type` and `version`. -/
def applyDefaults (opts : Options) (d : JiraDefaults) : Options :=
  { opts with
    component := if truthy opts.component then opts.component else d.component
    type := if truthy opts.type then opts.type else d.type
    version := if truthy opts.version then opts.version else d.version }

/-- Operation 2 of `getUpdatePayload_`: skipped (no remote call) when not
creating and no project is known; otherwise `getProject_`, whose remote
error passes through and whose success is not checked for `undefined`. -/
def projectStep (opts : Options) (r : Remote) : List RCall × PRes (Option Entity) :=
  if !opts.isNew && !truthy opts.project then ([], PRes.ok none)
  else
    match r.projectInfo with
    | Except.ok p => ([RCall.getProject], PRes.ok (some p))
    | Except.error e => ([RCall.getProject], PRes.err e)

/-- Operation 4 of `getUpdatePayload_`: priority resolution, skipped
entirely when the option is falsy; a missing match (or a failed listing)
yields the priority hint error. -/
def priorityStep (r : Remote) (search : Option String) : List RCall × PRes (Option Entity) :=
  if !truthy search then ([], PRes.ok none)
  else
    match resolveByName r.priorities search with
    | none => ([RCall.listPriorities], PRes.err "No priority found, try --priority \"Minor\".")
    | some p => ([RCall.listPriorities], PRes.ok (some p))

/-- Operation 5 of `getUpdatePayload_`: version resolution, skipped
entirely when the option is falsy. -/
def versionStep (r : Remote) (search : Option String) : List RCall × PRes (Option Entity) :=
  if !truthy search then ([], PRes.ok none)
  else
    match resolveByName r.versions search with
    | none => ([RCall.listVersions], PRes.err "No version found, try --version \"0.1.0\".")
    | some v => ([RCall.listVersions], PRes.ok (some v))

/-- The `fields` object literal built by the last operation of
`getUpdatePayload_`, keys in insertion order, plus the conditional
`priority`, `versions` and `reporter` keys. -/
def buildPayloadFields (cfgUser : String) (opts : Options) (message title : String)
    (issueType project component : Entity)
    (priority version : Option Entity) : List (String × JVal) :=
  [("assignee", JVal.jobj [("name", optJStr opts.assignee)]),
   ("components", JVal.jobj [("0", JVal.jobj [("id", JVal.jstr component.id)])]),
   ("description", JVal.jstr message),
   ("issuetype", JVal.jobj [("id", JVal.jstr issueType.id)]),
   ("project", JVal.jobj [("id", JVal.jstr project.id)]),
   ("summary", JVal.jstr title)]
  ++ (match priority with
      | some p => [("priority", JVal.jobj [("id", JVal.jstr p.id)])]
      | none => [])
  ++ (match version with
      | some v => [("versions", JVal.jobj [("0", JVal.jobj [("id", JVal.jstr v.id)])])]
      | none => [])
  ++ (if truthy opts.reporter && (!opts.isNew || decide (opts.reporter ≠ some cfgUser)) then
        [("reporter", JVal.jobj [("name", optJStr opts.reporter)])]
      else [])

/-- `Jira.prototype.getUpdatePayload_`: the five-operation `async.series`
pipeline resolving issue type, project, component, priority and version,
then assembling the payload; the trace records every remote call in
order, and the first error aborts the rest. -/
def getUpdatePayload (cfgUser : String) (opts : Options) (r : Remote) :
    List RCall × PRes JVal :=
  let message := opts.message.getD ""
  let title := opts.title.getD ""
  match resolveByName r.issueTypes opts.type with
  | none => ([RCall.listIssueTypes], PRes.err "No issue type found, try --type \"Bug\".")
  | some issueType =>
    match projectStep opts r with
    | (projCalls, PRes.err e) => ([RCall.listIssueTypes] ++ projCalls, PRes.err e)
    | (projCalls, PRes.crash) => ([RCall.listIssueTypes] ++ projCalls, PRes.crash)
    | (projCalls, PRes.ok project) =>
      let calls := [RCall.listIssueTypes] ++ projCalls ++ [RCall.listComponents]
      match resolveByName r.components opts.component with
      | none => (calls, PRes.err "No component found, try --component \"JavaScript\".")
      | some component =>
        match priorityStep r opts.priority with
        | (prioCalls, PRes.err e) => (calls ++ prioCalls, PRes.err e)
        | (prioCalls, PRes.crash) => (calls ++ prioCalls, PRes.crash)
        | (prioCalls, PRes.ok priority) =>
          match versionStep r opts.version with
          | (verCalls, PRes.err e) => (calls ++ prioCalls ++ verCalls, PRes.err e)
          | (verCalls, PRes.crash) => (calls ++ prioCalls ++ verCalls, PRes.crash)
          | (verCalls, PRes.ok version) =>
            match project with
            | none =>
              -- `project.id` with `project` undefined: TypeError.
              (calls ++ prioCalls ++ verCalls, PRes.crash)
            | some proj =>
              (calls ++ prioCalls ++ verCalls,
               PRes.ok (JVal.jobj [("fields", JVal.jobj
                 (buildPayloadFields cfgUser opts message title issueType proj component
                   priority version))]))

/-- `Jira.prototype.new`: build the payload, then `addNewIssue` (no
pruning); a payload-stage failure prevents the create call. -/
def newCommand (cfgUser : String) (opts : Options) (r : Remote)
    (createResult : Except String Entity) : List RCall × PRes (Option Entity) :=
  match getUpdatePayload cfgUser opts r with
  | (calls, PRes.err e) => (calls, PRes.err e)
  | (calls, PRes.crash) => (calls, PRes.crash)
  | (calls, PRes.ok payload) =>
    match createResult with
    | Except.ok issue => (calls ++ [RCall.addNewIssue payload], PRes.ok (some issue))
    | Except.error e => (calls ++ [RCall.addNewIssue payload], PRes.err e)

/-- `Jira.prototype.update`: build the payload, apply
`deleteObjectEmptyValues_` to it, then `updateIssue` with the pruned
payload. -/
def updateCommand (cfgUser : String) (opts : Options) (r : Remote)
    (updateResult : Except String JVal) : List RCall × PRes JVal :=
  match getUpdatePayload cfgUser opts r with
  | (calls, PRes.err e) => (calls, PRes.err e)
  | (calls, PRes.crash) => (calls, PRes.crash)
  | (calls, PRes.ok payload) =>
    match payload with
    | JVal.jobj es =>
      match deleteObjectEmptyValues es with
      | none => (calls, PRes.crash)
      | some es' =>
        match updateResult with
        | Except.ok d => (calls ++ [RCall.updateIssue (JVal.jobj es')], PRes.ok d)
        | Except.error e => (calls ++ [RCall.updateIssue (JVal.jobj es')], PRes.err e)
    | _ => (calls, PRes.crash)

/-- First value under a key of an object's entry list. -/
def lookupKey (es : List (String × JVal)) (k : String) : Option JVal :=
  (es.find? (fun e => decide (e.1 = k))).map (fun e => e.2)

/-- JavaScript property write `o[k] = v`: replace in place when the key
exists, else append. -/
def setKey (es : List (String × JVal)) (k : String) (v : JVal) : List (String × JVal) :=
  if es.any (fun e => decide (e.1 = k)) then
    es.map (fun e => if e.1 = k then (k, v) else e)
  else es ++ [(k, v)]

/-- Property read on an object value. -/
def objGet : JVal → String → Option JVal
  | JVal.jobj es, k => lookupKey es k
  | _, _ => none

/-- `payload.fields[k]` of a payload value. -/
def fieldOf (p : JVal) (k : String) : Option JVal :=
  match objGet p "fields" with
  | some f => objGet f k
  | none => none

/-- The schema of one dynamic transition field as the server declares it
under `transition.fields[fieldId]`. -/
structure FieldInfo where
  name : String
  required : Bool
  allowedValues : List Entity
  schemaType : String

/-- A workflow transition as returned by `listTransitions`: id, display
name, and the field-id → schema map. -/
structure Transition where
  id : String
  name : String
  fields : List (String × FieldInfo)

/-- An element of `transition.fieldsArray` after
`Jira.prototype.addTransitionFieldsArray_` copied each field id into its
schema record. -/
structure TransField where
  id : String
  name : String
  required : Bool
  allowedValues : List Entity
  schemaType : String

/-- `Jira.prototype.addTransitionFieldsArray_`: the fields map flattened
into an array in key order, each entry carrying its id. -/
def addTransitionFieldsArray (t : Transition) : List TransField :=
  t.fields.map (fun e =>
    { id := e.1, name := e.2.name, required := e.2.required,
      allowedValues := e.2.allowedValues, schemaType := e.2.schemaType })

/-- `Jira.prototype.getTransitionByName_`: list the transitions valid for
the issue's current state and take the first exact name match; a failed
listing leaves the transition `undefined`. -/
def getTransitionByName (listing : Except String (List Transition)) (name : String) :
    Option Transition :=
  match listing with
  | Except.ok l => findFirstArrayValue l (fun t => some t.name) (some name)
  | Except.error _ => none

/-- A statically configured per-transition field value
(`jiraConfig.transition[transitionName][fieldName]`): the literal `true`
is the prompt sentinel, anything else is used directly. -/
inductive CfgVal where
  | sentinel
  | val (v : JVal)

/-- `transitionConfig && transitionConfig[field.name]`: `undefined` when
the per-transition configuration is absent or has no entry for the field
name. -/
def transitionConfigValue (cfg : Option (List (String × CfgVal))) (fieldName : String) :
    Option CfgVal :=
  match cfg with
  | none => none
  | some m => (m.find? (fun e => decide (e.1 = fieldName))).map (fun e => e.2)

/-- The element of a transition field's `allowedValues` as a JavaScript
object. -/
def entityJVal (e : Entity) : JVal :=
  JVal.jobj [("name", JVal.jstr e.name), ("id", JVal.jstr e.id)]

/-- `if (field.schema.type === 'array') fieldValue = [fieldValue]`. -/
def wrapIfArray (f : TransField) (v : JVal) : JVal :=
  if f.schemaType = "array" then JVal.jobj [("0", v)] else v

/-- One field of the synchronous first pass of `expandTransitionFields_`:
`payload.fields[field.id] = configValue` when the configured value is
neither `undefined` nor the `true` sentinel, else no write. -/
def staticStep (cfg : Option (List (String × CfgVal))) (f : TransField)
    (acc : List (String × JVal)) : List (String × JVal) :=
  match transitionConfigValue cfg f.name with
  | some (CfgVal.val v) => setKey acc f.id v
  | _ => acc

/-- The synchronous first pass of `expandTransitionFields_`: every field
with a static configured value that is neither `undefined` nor the `true`
sentinel is written into `payload.fields` immediately, in field order. -/
def applyStaticConfigValues (cfg : Option (List (String × CfgVal))) :
    List TransField → List (String × JVal) → List (String × JVal)
  | [], acc => acc
  | f :: rest, acc => applyStaticConfigValues cfg rest (staticStep cfg f acc)

/-- Whether `expandTransitionFields_` queues an interactive prompt for a
field: no usable static value, and either the field is required or it is
explicitly marked with the `true` sentinel. -/
def promptPred (cfg : Option (List (String × CfgVal))) (f : TransField) : Bool :=
  match transitionConfigValue cfg f.name with
  | some (CfgVal.val _) => false
  | some CfgVal.sentinel => true
  | none => f.required

/-- The fields for which `expandTransitionFields_` queues an interactive
prompt, in order. -/
def promptsFor (cfg : Option (List (String × CfgVal))) (fieldsArray : List TransField) :
    List TransField :=
  fieldsArray.filter (promptPred cfg)

/-- The value a prompt resolves to: the first element of `allowedValues`
whose `name` equals the chosen answer (`undefined` when none does). -/
def promptedFieldValue (choose : TransField → String) (f : TransField) : JVal :=
  match findFirstArrayValue f.allowedValues (fun e => some e.name) (some (choose f)) with
  | some e => entityJVal e
  | none => JVal.jundef

/-- The second pass of `expandTransitionFields_`: the queued prompts run
in order through `async.series`, each writing its (possibly
array-wrapped) resolved value under the field id. -/
def applyPromptedValues (choose : TransField → String) :
    List TransField → List (String × JVal) → List (String × JVal)
  | [], acc => acc
  | f :: rest, acc =>
    applyPromptedValues choose rest
      (setKey acc f.id (wrapIfArray f (promptedFieldValue choose f)))

/-- `Jira.prototype.expandTransitionFields_` over the `fields` map of the
payload: the resulting `payload.fields` entries, together with the list of
field ids for which an interactive prompt was issued, in order.  `choose`
models the user's single-choice answer (a name from the field's
`allowedValues`). -/
def expandTransitionFields (cfg : Option (List (String × CfgVal)))
    (fieldsArray : List TransField) (choose : TransField → String)
    (fields0 : List (String × JVal)) : List (String × JVal) × List String :=
  (applyPromptedValues choose (promptsFor cfg fieldsArray)
     (applyStaticConfigValues cfg fieldsArray fields0),
   (promptsFor cfg fieldsArray).map (fun f => f.id))

/-- The external collaborators of one `transition` run: the transition
listing, the issue fetch, the prompt answers, the template substitution
pass `compileObjectValuesTemplate_` applies, the comment/signature
expansion, and the submission outcome. -/
structure TransitionEnv where
  transitions : Except String (List Transition)
  issueFetch : Except String Unit
  choose : TransField → String
  tmpl : JVal → JVal
  expandComment : String → String
  submitResult : Except String JVal

/-- `Jira.prototype.transition`: match the requested name against the
fetched transitions (failure aborts with the "not a valid transition"
error before anything else), fetch the issue, assemble the payload
(optional comment, optional assignee, expanded transition fields), run the
template pass, and submit. -/
def transitionCommand (cfgTransition : String → Option (List (String × CfgVal)))
    (opts : Options) (name : String) (env : TransitionEnv) : List RCall × PRes JVal :=
  let message := opts.message.getD ""
  match getTransitionByName env.transitions name with
  | none =>
    ([RCall.listTransitions],
     PRes.err ("\"" ++ name ++ "\" is not a valid transition, try another action."))
  | some t =>
    match env.issueFetch with
    | Except.error e => ([RCall.listTransitions, RCall.findIssue], PRes.err e)
    | Except.ok _ =>
      let updateObj : List (String × JVal) :=
        if !(message = "") then
          [("comment", JVal.jobj [("0", JVal.jobj
            [("add", JVal.jobj [("body", JVal.jstr (env.expandComment message))])])])]
        else []
      let fields0 : List (String × JVal) :=
        if truthy opts.assignee then
          [("assignee", JVal.jobj [("name", optJStr opts.assignee)])]
        else []
      let expanded :=
        expandTransitionFields (cfgTransition name) (addTransitionFieldsArray t)
          env.choose fields0
      let payload := JVal.jobj
        [("update", JVal.jobj updateObj),
         ("fields", JVal.jobj expanded.1),
         ("transition", JVal.jobj [("id", JVal.jstr t.id)])]
      let submitted := env.tmpl payload
      match env.submitResult with
      | Except.ok d =>
        ([RCall.listTransitions, RCall.findIssue, RCall.transitionIssue submitted], PRes.ok d)
      | Except.error e =>
        ([RCall.listTransitions, RCall.findIssue, RCall.transitionIssue submitted], PRes.err e)

/-- The single HTTP request `Jira.prototype.assign` hands to
`api.request`. -/
structure HttpRequest where
  method : String
  uri : String
  bodyName : String
deriving Repr, DecidableEq

/-- `Jira.prototype.assign`: exactly one `PUT /issue/{number}/assignee`
request carrying the assignee name; no retry logic exists. -/
def assignRequests (number name : String) : List HttpRequest :=
  [{ method := "PUT", uri := "/issue/" ++ number ++ "/assignee", bodyName := name }]

/-- The `switch (response.statusCode)` table in `run`'s assign branch:
the user-visible message for each response status. -/
def assignStatusMessage (assignee : String) : Nat → String
  | 204 => "Issue assigned to " ++ assignee
  | 400 => "There is a problem with the received user representation."
  | 401 => "Calling user has no permission to assign the issue."
  | 404 => "Either the issue or the user does not exist."
  | _ => "There was an error trying to assign the issue."

/-! ## Sample data for concrete runs -/

/-- An option record with nothing supplied. -/
def emptyOptions : Options :=
  { isNew := false, project := none, type := none, component := none, priority := none,
    version := none, assignee := none, reporter := none, message := none, title := none }

/-- A healthy remote with one listing per endpoint. -/
def sampleRemote : Remote :=
  { issueTypes := Except.ok [⟨"Bug", "1"⟩, ⟨"Task", "3"⟩]
    projectInfo := Except.ok ⟨"LPS", "10100"⟩
    components := Except.ok [⟨"JavaScript", "11"⟩]
    priorities := Except.ok [⟨"Minor", "4"⟩]
    versions := Except.ok [⟨"0.1.0", "7"⟩] }

/-- A transition named "Start Progress" with no dynamic fields. -/
def tStartProgress : Transition := { id := "4", name := "Start Progress", fields := [] }

/-- A transition environment whose listing holds only `tStartProgress`. -/
def sampleTransEnv : TransitionEnv :=
  { transitions := Except.ok [tStartProgress]
    issueFetch := Except.ok ()
    choose := fun _ => ""
    tmpl := id
    expandComment := id
    submitResult := Except.ok (JVal.jobj []) }

/-- Options for a create run with project and title but no component. -/
def optsC5 : Options :=
  { emptyOptions with
    isNew := true
    project := some "LPS"
    type := some "Bug"
    title := some "X" }

/-- Options for a create run leaving priority and version unspecified. -/
def optsC4a : Options :=
  { emptyOptions with
    isNew := true
    project := some "LPS"
    type := some "Bug"
    component := some "JavaScript" }

/-- Options for a create run supplying priority and version. -/
def optsC4b : Options :=
  { optsC4a with priority := some "Minor", version := some "0.1.0" }

/-- The payload `getUpdatePayload_` assembles for `optsC4a` against
`sampleRemote`. -/
def payloadC4a : JVal :=
  JVal.jobj [("fields", JVal.jobj
    [("assignee", JVal.jobj [("name", JVal.jundef)]),
     ("components", JVal.jobj [("0", JVal.jobj [("id", JVal.jstr "11")])]),
     ("description", JVal.jstr ""),
     ("issuetype", JVal.jobj [("id", JVal.jstr "1")]),
     ("project", JVal.jobj [("id", JVal.jstr "10100")]),
     ("summary", JVal.jstr "")])]

/-- The payload `getUpdatePayload_` assembles for `optsC4b` against
`sampleRemote`. -/
def payloadC4b : JVal :=
  JVal.jobj [("fields", JVal.jobj
    [("assignee", JVal.jobj [("name", JVal.jundef)]),
     ("components", JVal.jobj [("0", JVal.jobj [("id", JVal.jstr "11")])]),
     ("description", JVal.jstr ""),
     ("issuetype", JVal.jobj [("id", JVal.jstr "1")]),
     ("project", JVal.jobj [("id", JVal.jstr "10100")]),
     ("summary", JVal.jstr ""),
     ("priority", JVal.jobj [("id", JVal.jstr "4")]),
     ("versions", JVal.jobj [("0", JVal.jobj [("id", JVal.jstr "7")])])])]

/-- Options for an update run (not create) supplying a reporter equal to
the acting configured user "bob". -/
def optsUpd : Options :=
  { emptyOptions with
    project := some "LPS"
    type := some "Bug"
    component := some "JavaScript"
    reporter := some "bob" }

/-- The payload `getUpdatePayload_` assembles for `optsUpd` against
`sampleRemote` with acting user "bob". -/
def payloadUpd : JVal :=
  JVal.jobj [("fields", JVal.jobj
    [("assignee", JVal.jobj [("name", JVal.jundef)]),
     ("components", JVal.jobj [("0", JVal.jobj [("id", JVal.jstr "11")])]),
     ("description", JVal.jstr ""),
     ("issuetype", JVal.jobj [("id", JVal.jstr "1")]),
     ("project", JVal.jobj [("id", JVal.jstr "10100")]),
     ("summary", JVal.jstr ""),
     ("reporter", JVal.jobj [("name", JVal.jstr "bob")])])]

/-- `payloadUpd` after `deleteObjectEmptyValues_`, as submitted by the
update command. -/
def prunedUpd : JVal :=
  JVal.jobj [("fields", JVal.jobj
    [("assignee", JVal.jobj []),
     ("components", JVal.jobj [("0", JVal.jobj [("id", JVal.jstr "11")])]),
     ("issuetype", JVal.jobj [("id", JVal.jstr "1")]),
     ("project", JVal.jobj [("id", JVal.jstr "10100")]),
     ("reporter", JVal.jobj [("name", JVal.jstr "bob")])])]

/-- A transition field with a statically configured value. -/
def fldA : TransField :=
  { id := "f1", name := "Resolution", required := false, allowedValues := [],
    schemaType := "option" }

/-- A required, array-typed transition field with no configured value. -/
def fldB : TransField :=
  { id := "f2", name := "Fix Version", required := true,
    allowedValues := [⟨"0.2.0", "20"⟩], schemaType := "array" }

/-- An optional transition field with no configured value. -/
def fldC : TransField :=
  { id := "f3", name := "Labels", required := false, allowedValues := [],
    schemaType := "string" }

/-- A per-transition configuration giving `fldA` a static value. -/
def cfgC2 : Option (List (String × CfgVal)) :=
  some [("Resolution", CfgVal.val (JVal.jstr "Fixed"))]

/-! ## Lemmas about the pruning walk -/

theorem lookupKey_cons (k0 : String) (v0 : JVal) (rest : List (String × JVal)) (k : String) :
    lookupKey ((k0, v0) :: rest) k = if k0 = k then some v0 else lookupKey rest k := by
  by_cases h : k0 = k <;> simp [lookupKey, List.find?_cons, h]

theorem deleteObjectEmptyValues_pruned :
    ∀ {es es'}, deleteObjectEmptyValues es = some es' → PrunedEntries es' = true := by
  intro es
  induction es using deleteObjectEmptyValues.induct with
  | case1 =>
    intro es' h
    simp only [deleteObjectEmptyValues, Option.some.injEq] at h
    simp [← h, PrunedEntries]
  | case2 k rest =>
    intro es' h
    simp only [deleteObjectEmptyValues] at h
    exact Option.noConfusion h
  | case3 k es rest ih1 ih2 =>
    intro res h
    simp only [deleteObjectEmptyValues, Option.bind_eq_bind, Option.bind_eq_some,
      Option.pure_def, Option.some.injEq] at h
    obtain ⟨es', hes, rest', hrest, hres⟩ := h
    subst hres
    simp [PrunedEntries, PrunedV, ih1 hes, ih2 hrest]
  | case4 k rest ih =>
    intro res h
    simp only [deleteObjectEmptyValues] at h
    exact ih h
  | case5 k rest ih =>
    intro res h
    simp only [deleteObjectEmptyValues, if_pos] at h
    exact ih h
  | case6 k s rest hs ih =>
    intro res h
    simp only [deleteObjectEmptyValues, if_neg hs, Option.bind_eq_bind, Option.bind_eq_some,
      Option.pure_def, Option.some.injEq] at h
    obtain ⟨rest', hrest, hres⟩ := h
    subst hres
    simp [PrunedEntries, PrunedV, hs, ih hrest]
  | case7 k b rest ih =>
    intro res h
    simp only [deleteObjectEmptyValues, Option.bind_eq_bind, Option.bind_eq_some,
      Option.pure_def, Option.some.injEq] at h
    obtain ⟨rest', hrest, hres⟩ := h
    subst hres
    simp [PrunedEntries, PrunedV, ih hrest]
  | case8 k n rest ih =>
    intro res h
    simp only [deleteObjectEmptyValues, Option.bind_eq_bind, Option.bind_eq_some,
      Option.pure_def, Option.some.injEq] at h
    obtain ⟨rest', hrest, hres⟩ := h
    subst hres
    simp [PrunedEntries, PrunedV, ih hrest]

theorem prunedEntries_fixed :
    ∀ {es}, PrunedEntries es = true → deleteObjectEmptyValues es = some es := by
  intro es
  induction es using deleteObjectEmptyValues.induct with
  | case1 => intro _; simp [deleteObjectEmptyValues]
  | case2 k rest => intro h; simp [PrunedEntries, PrunedV] at h
  | case3 k es rest ih1 ih2 =>
    intro h
    simp only [PrunedEntries, PrunedV, Bool.and_eq_true] at h
    simp [deleteObjectEmptyValues, ih1 h.1, ih2 h.2]
  | case4 k rest ih => intro h; simp [PrunedEntries, PrunedV] at h
  | case5 k rest ih => intro h; simp [PrunedEntries, PrunedV] at h
  | case6 k s rest hs ih =>
    intro h
    simp only [PrunedEntries, PrunedV, Bool.and_eq_true] at h
    simp [deleteObjectEmptyValues, if_neg hs, ih h.2]
  | case7 k b rest ih =>
    intro h
    simp only [PrunedEntries, PrunedV, Bool.and_eq_true] at h
    simp [deleteObjectEmptyValues, ih h.2]
  | case8 k n rest ih =>
    intro h
    simp only [PrunedEntries, PrunedV, Bool.and_eq_true] at h
    simp [deleteObjectEmptyValues, ih h.2]

theorem prunedEntries_mem : ∀ {es : List (String × JVal)} {k : String} {v : JVal},
    PrunedEntries es = true → (k, v) ∈ es → PrunedV v = true := by
  intro es
  induction es with
  | nil => intro k v _ hm; cases hm
  | cons e rest ih =>
    intro k v h hm
    obtain ⟨k0, v0⟩ := e
    simp only [PrunedEntries, Bool.and_eq_true] at h
    rcases List.mem_cons.mp hm with heq | hmem
    · cases heq; exact h.1
    · exact ih h.2 hmem

theorem deleteObjectEmptyValues_null_mem : ∀ {es : List (String × JVal)} {k : String},
    (k, JVal.jnull) ∈ es → deleteObjectEmptyValues es = none := by
  intro es
  induction es using deleteObjectEmptyValues.induct with
  | case1 => intro k hm; cases hm
  | case2 k0 rest => intro k _; simp [deleteObjectEmptyValues]
  | case3 k0 es0 rest ih1 ih2 =>
    intro k hm
    rcases List.mem_cons.mp hm with heq | hmem
    · cases heq
    · cases hes : deleteObjectEmptyValues es0 <;>
        simp [deleteObjectEmptyValues, hes, ih2 hmem]
  | case4 k0 rest ih =>
    intro k hm
    rcases List.mem_cons.mp hm with heq | hmem
    · cases heq
    · simp only [deleteObjectEmptyValues]; exact ih hmem
  | case5 k0 rest ih =>
    intro k hm
    rcases List.mem_cons.mp hm with heq | hmem
    · cases heq
    · simp only [deleteObjectEmptyValues, if_pos]; exact ih hmem
  | case6 k0 s rest hs ih =>
    intro k hm
    rcases List.mem_cons.mp hm with heq | hmem
    · cases heq
    · simp [deleteObjectEmptyValues, if_neg hs, ih hmem]
  | case7 k0 b rest ih =>
    intro k hm
    rcases List.mem_cons.mp hm with heq | hmem
    · cases heq
    · simp [deleteObjectEmptyValues, ih hmem]
  | case8 k0 n rest ih =>
    intro k hm
    rcases List.mem_cons.mp hm with heq | hmem
    · cases heq
    · simp [deleteObjectEmptyValues, ih hmem]

theorem deleteObjectEmptyValues_noNull_isSome : ∀ {es : List (String × JVal)},
    NoNullEntries es = true → (deleteObjectEmptyValues es).isSome = true := by
  intro es
  induction es using deleteObjectEmptyValues.induct with
  | case1 => intro _; simp [deleteObjectEmptyValues]
  | case2 k rest => intro h; simp [NoNullEntries, NoNull] at h
  | case3 k es0 rest ih1 ih2 =>
    intro h
    simp only [NoNullEntries, NoNull, Bool.and_eq_true] at h
    obtain ⟨es', hes⟩ := Option.isSome_iff_exists.mp (ih1 h.1)
    obtain ⟨rest', hrest⟩ := Option.isSome_iff_exists.mp (ih2 h.2)
    simp [deleteObjectEmptyValues, hes, hrest]
  | case4 k rest ih =>
    intro h
    simp only [NoNullEntries, NoNull, Bool.and_eq_true] at h
    simp only [deleteObjectEmptyValues]; exact ih h.2
  | case5 k rest ih =>
    intro h
    simp only [NoNullEntries, NoNull, Bool.and_eq_true] at h
    simp only [deleteObjectEmptyValues, if_pos]; exact ih h.2
  | case6 k s rest hs ih =>
    intro h
    simp only [NoNullEntries, NoNull, Bool.and_eq_true] at h
    obtain ⟨rest', hrest⟩ := Option.isSome_iff_exists.mp (ih h.2)
    simp [deleteObjectEmptyValues, if_neg hs, hrest]
  | case7 k b rest ih =>
    intro h
    simp only [NoNullEntries, NoNull, Bool.and_eq_true] at h
    obtain ⟨rest', hrest⟩ := Option.isSome_iff_exists.mp (ih h.2)
    simp [deleteObjectEmptyValues, hrest]
  | case8 k n rest ih =>
    intro h
    simp only [NoNullEntries, NoNull, Bool.and_eq_true] at h
    obtain ⟨rest', hrest⟩ := Option.isSome_iff_exists.mp (ih h.2)
    simp [deleteObjectEmptyValues, hrest]

theorem deleteObjectEmptyValues_obj_key : ∀ {es es' : List (String × JVal)},
    deleteObjectEmptyValues es = some es' → ∀ {k : String} {vs : List (String × JVal)},
    (k, JVal.jobj vs) ∈ es → ∃ vs', (k, JVal.jobj vs') ∈ es' := by
  intro es
  induction es using deleteObjectEmptyValues.induct with
  | case1 => intro es' _ k vs hm; cases hm
  | case2 k0 rest =>
    intro es' h
    simp only [deleteObjectEmptyValues] at h
    exact Option.noConfusion h
  | case3 k0 es0 rest ih1 ih2 =>
    intro res h k vs hm
    simp only [deleteObjectEmptyValues, Option.bind_eq_bind, Option.bind_eq_some,
      Option.pure_def, Option.some.injEq] at h
    obtain ⟨es0', hes, rest', hrest, hres⟩ := h
    subst hres
    rcases List.mem_cons.mp hm with heq | hmem
    · cases heq
      exact ⟨es0', List.mem_cons_self _ _⟩
    · obtain ⟨vs', hvs⟩ := ih2 hrest hmem
      exact ⟨vs', List.mem_cons_of_mem _ hvs⟩
  | case4 k0 rest ih =>
    intro res h k vs hm
    simp only [deleteObjectEmptyValues] at h
    rcases List.mem_cons.mp hm with heq | hmem
    · cases heq
    · exact ih h hmem
  | case5 k0 rest ih =>
    intro res h k vs hm
    simp only [deleteObjectEmptyValues, if_pos] at h
    rcases List.mem_cons.mp hm with heq | hmem
    · cases heq
    · exact ih h hmem
  | case6 k0 s rest hs ih =>
    intro res h k vs hm
    simp only [deleteObjectEmptyValues, if_neg hs, Option.bind_eq_bind, Option.bind_eq_some,
      Option.pure_def, Option.some.injEq] at h
    obtain ⟨rest', hrest, hres⟩ := h
    subst hres
    rcases List.mem_cons.mp hm with heq | hmem
    · cases heq
    · obtain ⟨vs', hvs⟩ := ih hrest hmem
      exact ⟨vs', List.mem_cons_of_mem _ hvs⟩
  | case7 k0 b rest ih =>
    intro res h k vs hm
    simp only [deleteObjectEmptyValues, Option.bind_eq_bind, Option.bind_eq_some,
      Option.pure_def, Option.some.injEq] at h
    obtain ⟨rest', hrest, hres⟩ := h
    subst hres
    rcases List.mem_cons.mp hm with heq | hmem
    · cases heq
    · obtain ⟨vs', hvs⟩ := ih hrest hmem
      exact ⟨vs', List.mem_cons_of_mem _ hvs⟩
  | case8 k0 n rest ih =>
    intro res h k vs hm
    simp only [deleteObjectEmptyValues, Option.bind_eq_bind, Option.bind_eq_some,
      Option.pure_def, Option.some.injEq] at h
    obtain ⟨rest', hrest, hres⟩ := h
    subst hres
    rcases List.mem_cons.mp hm with heq | hmem
    · cases heq
    · obtain ⟨vs', hvs⟩ := ih hrest hmem
      exact ⟨vs', List.mem_cons_of_mem _ hvs⟩

theorem deleteObjectEmptyValues_lookup_obj : ∀ {es es' : List (String × JVal)},
    deleteObjectEmptyValues es = some es' → ∀ {k : String} {vs : List (String × JVal)},
    lookupKey es k = some (JVal.jobj vs) →
    ∃ vs', lookupKey es' k = some (JVal.jobj vs') := by
  intro es
  induction es using deleteObjectEmptyValues.induct with
  | case1 => intro es' _ k vs hm; simp [lookupKey] at hm
  | case2 k0 rest =>
    intro es' h
    simp only [deleteObjectEmptyValues] at h
    exact Option.noConfusion h
  | case3 k0 es0 rest ih1 ih2 =>
    intro res h k vs hl
    simp only [deleteObjectEmptyValues, Option.bind_eq_bind, Option.bind_eq_some,
      Option.pure_def, Option.some.injEq] at h
    obtain ⟨es0', hes, rest', hrest, hres⟩ := h
    subst hres
    rw [lookupKey_cons] at hl ⊢
    by_cases hk : k0 = k
    · simp [hk] at hl ⊢
    · simp only [if_neg hk] at hl ⊢
      exact ih2 hrest hl
  | case4 k0 rest ih =>
    intro res h k vs hl
    simp only [deleteObjectEmptyValues] at h
    rw [lookupKey_cons] at hl
    by_cases hk : k0 = k
    · simp [hk] at hl
    · simp only [if_neg hk] at hl
      exact ih h hl
  | case5 k0 rest ih =>
    intro res h k vs hl
    simp only [deleteObjectEmptyValues, if_pos] at h
    rw [lookupKey_cons] at hl
    by_cases hk : k0 = k
    · simp [hk] at hl
    · simp only [if_neg hk] at hl
      exact ih h hl
  | case6 k0 s rest hs ih =>
    intro res h k vs hl
    simp only [deleteObjectEmptyValues, if_neg hs, Option.bind_eq_bind, Option.bind_eq_some,
      Option.pure_def, Option.some.injEq] at h
    obtain ⟨rest', hrest, hres⟩ := h
    subst hres
    rw [lookupKey_cons] at hl ⊢
    by_cases hk : k0 = k
    · simp [hk] at hl
    · simp only [if_neg hk] at hl ⊢
      exact ih hrest hl
  | case7 k0 b rest ih =>
    intro res h k vs hl
    simp only [deleteObjectEmptyValues, Option.bind_eq_bind, Option.bind_eq_some,
      Option.pure_def, Option.some.injEq] at h
    obtain ⟨rest', hrest, hres⟩ := h
    subst hres
    rw [lookupKey_cons] at hl ⊢
    by_cases hk : k0 = k
    · simp [hk] at hl
    · simp only [if_neg hk] at hl ⊢
      exact ih hrest hl
  | case8 k0 n rest ih =>
    intro res h k vs hl
    simp only [deleteObjectEmptyValues, Option.bind_eq_bind, Option.bind_eq_some,
      Option.pure_def, Option.some.injEq] at h
    obtain ⟨rest', hrest, hres⟩ := h
    subst hres
    rw [lookupKey_cons] at hl ⊢
    by_cases hk : k0 = k
    · simp [hk] at hl
    · simp only [if_neg hk] at hl ⊢
      exact ih hrest hl

/-! ## Lemmas about the payload pipeline -/

/-- Searching for an `undefined` name never matches (`val.name ===
undefined` fails for every listed entity). -/
theorem resolveByName_none (listing : Except String (List Entity)) :
    resolveByName listing none = none := by
  cases listing <;> simp [resolveByName, findFirstArrayValue, List.find?_eq_none]

theorem projectStep_calls (opts : Options) (r : Remote) :
    (projectStep opts r).1 = [] ∨ (projectStep opts r).1 = [RCall.getProject] := by
  unfold projectStep
  split
  · exact Or.inl rfl
  · split <;> exact Or.inr rfl

theorem priorityStep_calls (r : Remote) (search : Option String) :
    (priorityStep r search).1 = [] ∨ (priorityStep r search).1 = [RCall.listPriorities] := by
  unfold priorityStep
  split
  · exact Or.inl rfl
  · split <;> exact Or.inr rfl

theorem versionStep_calls (r : Remote) (search : Option String) :
    (versionStep r search).1 = [] ∨ (versionStep r search).1 = [RCall.listVersions] := by
  unfold versionStep
  split
  · exact Or.inl rfl
  · split <;> exact Or.inr rfl

theorem lookupKey_append (es1 es2 : List (String × JVal)) (k : String) :
    lookupKey (es1 ++ es2) k = (lookupKey es1 k).or (lookupKey es2 k) := by
  induction es1 with
  | nil => simp [lookupKey]
  | cons e rest ih =>
    obtain ⟨k0, v0⟩ := e
    by_cases h : k0 = k <;>
      simp [lookupKey_cons, h, List.cons_append, ih]

/-- The pipeline succeeds exactly through the final branch: the resolved
entities exist and the payload is the assembled object literal. -/
theorem getUpdatePayload_ok : ∀ {cfgUser : String} {opts : Options} {r : Remote}
    {payload : JVal}, (getUpdatePayload cfgUser opts r).2 = PRes.ok payload →
    ∃ issueType proj component priority version,
      resolveByName r.issueTypes opts.type = some issueType
      ∧ (projectStep opts r).2 = PRes.ok (some proj)
      ∧ resolveByName r.components opts.component = some component
      ∧ (priorityStep r opts.priority).2 = PRes.ok priority
      ∧ (versionStep r opts.version).2 = PRes.ok version
      ∧ payload = JVal.jobj [("fields", JVal.jobj (buildPayloadFields cfgUser opts
          (opts.message.getD "") (opts.title.getD "") issueType proj component
          priority version))] := by
  intro cfgUser opts r payload h
  simp only [getUpdatePayload] at h
  cases hit : resolveByName r.issueTypes opts.type with
  | none => rw [hit] at h; simp at h
  | some issueType =>
  rw [hit] at h
  rcases hps : projectStep opts r with ⟨pc, pres⟩
  rw [hps] at h
  cases pres with
  | err e => simp at h
  | crash => simp at h
  | ok project =>
  cases hco : resolveByName r.components opts.component with
  | none => rw [hco] at h; simp at h
  | some component =>
  rw [hco] at h
  rcases hpr : priorityStep r opts.priority with ⟨prc, prres⟩
  rw [hpr] at h
  cases prres with
  | err e => simp at h
  | crash => simp at h
  | ok priority =>
  rcases hvr : versionStep r opts.version with ⟨vc, vres⟩
  rw [hvr] at h
  cases vres with
  | err e => simp at h
  | crash => simp at h
  | ok version =>
  cases project with
  | none => simp at h
  | some proj =>
  simp only [PRes.ok.injEq] at h
  exact ⟨issueType, proj, component, priority, version, rfl, rfl, rfl, rfl, rfl, h.symm⟩

theorem buildPayloadFields_lookup_priority (cfgUser : String) (opts : Options)
    (message title : String) (it proj comp : Entity) (pr ver : Option Entity) :
    lookupKey (buildPayloadFields cfgUser opts message title it proj comp pr ver) "priority"
      = pr.map (fun p => JVal.jobj [("id", JVal.jstr p.id)]) := by
  cases pr <;> cases ver <;>
    (simp only [buildPayloadFields]; split <;> simp_all [lookupKey_append, lookupKey])

theorem buildPayloadFields_lookup_versions (cfgUser : String) (opts : Options)
    (message title : String) (it proj comp : Entity) (pr ver : Option Entity) :
    lookupKey (buildPayloadFields cfgUser opts message title it proj comp pr ver) "versions"
      = ver.map (fun v => JVal.jobj [("0", JVal.jobj [("id", JVal.jstr v.id)])]) := by
  cases pr <;> cases ver <;>
    (simp only [buildPayloadFields]; split <;> simp_all [lookupKey_append, lookupKey])

theorem buildPayloadFields_lookup_project (cfgUser : String) (opts : Options)
    (message title : String) (it proj comp : Entity) (pr ver : Option Entity) :
    lookupKey (buildPayloadFields cfgUser opts message title it proj comp pr ver) "project"
      = some (JVal.jobj [("id", JVal.jstr proj.id)]) := by
  cases pr <;> cases ver <;>
    (simp only [buildPayloadFields]; split <;> simp_all [lookupKey_append, lookupKey])

theorem buildPayloadFields_lookup_reporter (cfgUser : String) (opts : Options)
    (message title : String) (it proj comp : Entity) (pr ver : Option Entity) :
    lookupKey (buildPayloadFields cfgUser opts message title it proj comp pr ver) "reporter"
      = (if truthy opts.reporter && (!opts.isNew || decide (opts.reporter ≠ some cfgUser))
         then some (JVal.jobj [("name", optJStr opts.reporter)]) else none) := by
  cases pr <;> cases ver <;>
    (simp only [buildPayloadFields]; split <;> simp_all [lookupKey_append, lookupKey])

theorem buildPayloadFields_lookup_description (cfgUser : String) (opts : Options)
    (message title : String) (it proj comp : Entity) (pr ver : Option Entity) :
    lookupKey (buildPayloadFields cfgUser opts message title it proj comp pr ver)
        "description" = some (JVal.jstr message) := by
  cases pr <;> cases ver <;>
    (simp only [buildPayloadFields]; split <;> simp_all [lookupKey_append, lookupKey])

theorem fieldOf_payload (F : List (String × JVal)) (k : String) :
    fieldOf (JVal.jobj [("fields", JVal.jobj F)]) k = lookupKey F k := by
  simp [fieldOf, objGet, lookupKey]

/-- Every call the payload pipeline issues belongs to one of its five
resolution stages. -/
theorem getUpdatePayload_calls_sub (cfgUser : String) (opts : Options) (r : Remote) :
    ∀ c ∈ (getUpdatePayload cfgUser opts r).1,
      c = RCall.listIssueTypes ∨ c ∈ (projectStep opts r).1 ∨ c = RCall.listComponents
      ∨ c ∈ (priorityStep r opts.priority).1 ∨ c ∈ (versionStep r opts.version).1 := by
  intro c hc
  rcases hps : projectStep opts r with ⟨pc, pres⟩
  rcases hpr : priorityStep r opts.priority with ⟨prc, prres⟩
  rcases hvs : versionStep r opts.version with ⟨vc, vres⟩
  dsimp only
  simp only [getUpdatePayload, hps, hpr, hvs] at hc
  cases hit : resolveByName r.issueTypes opts.type <;> rw [hit] at hc
  · simp only [List.mem_singleton] at hc
    exact Or.inl hc
  · cases pres with
    | err e => simp only [List.mem_append, List.mem_singleton] at hc ⊢; tauto
    | crash => simp only [List.mem_append, List.mem_singleton] at hc ⊢; tauto
    | ok project =>
      cases hco : resolveByName r.components opts.component <;> rw [hco] at hc
      · simp only [List.mem_append, List.mem_singleton] at hc ⊢; tauto
      · cases prres with
        | err e => simp only [List.mem_append, List.mem_singleton] at hc ⊢; tauto
        | crash => simp only [List.mem_append, List.mem_singleton] at hc ⊢; tauto
        | ok priority =>
          cases vres with
          | err e => simp only [List.mem_append, List.mem_singleton] at hc ⊢; tauto
          | crash => simp only [List.mem_append, List.mem_singleton] at hc ⊢; tauto
          | ok version =>
            cases project <;>
              (simp only [List.mem_append, List.mem_singleton] at hc ⊢; tauto)

/-- The payload pipeline itself never mutates the tracker. -/
theorem getUpdatePayload_no_submit (cfgUser : String) (opts : Options) (r : Remote) :
    ∀ c ∈ (getUpdatePayload cfgUser opts r).1, isSubmitCall c = false := by
  intro c hc
  rcases getUpdatePayload_calls_sub cfgUser opts r c hc with h | h | h | h | h
  · rw [h]; rfl
  · rcases projectStep_calls opts r with he | he <;> rw [he] at h
    · cases h
    · rw [List.mem_singleton.mp h]; rfl
  · rw [h]; rfl
  · rcases priorityStep_calls r opts.priority with he | he <;> rw [he] at h
    · cases h
    · rw [List.mem_singleton.mp h]; rfl
  · rcases versionStep_calls r opts.version with he | he <;> rw [he] at h
    · cases h
    · rw [List.mem_singleton.mp h]; rfl

/-- A successful project step comes from a successful `getProject`. -/
theorem projectStep_ok_inv {opts : Options} {r : Remote} {proj : Entity} :
    (projectStep opts r).2 = PRes.ok (some proj) → r.projectInfo = Except.ok proj := by
  unfold projectStep
  split
  · intro h; simp at h
  · split
    next p heq =>
      intro h
      obtain rfl : p = proj := by simpa using h
      exact heq
    next e heq =>
      intro h
      simp at h

/-- Pruning the one-entry payload object `{fields: {...}}`. -/
theorem deleteObjectEmptyValues_fields_inv {F es' : List (String × JVal)} :
    deleteObjectEmptyValues [("fields", JVal.jobj F)] = some es' →
    ∃ F', deleteObjectEmptyValues F = some F' ∧ es' = [("fields", JVal.jobj F')] := by
  intro h
  simp only [deleteObjectEmptyValues, Option.bind_eq_bind, Option.bind_eq_some,
    Option.pure_def, Option.some.injEq] at h
  obtain ⟨F', hF, rest', hrest, hres⟩ := h
  exact ⟨F', hF, by rw [← hres, ← hrest]⟩

/-- An `updateIssue` call in the update command's trace carries exactly the
pruned successful payload. -/
theorem updateCommand_submit_payload {cfgUser : String} {opts : Options} {r : Remote}
    {ur : Except String JVal} {p : JVal} :
    RCall.updateIssue p ∈ (updateCommand cfgUser opts r ur).1 →
    ∃ es es', (getUpdatePayload cfgUser opts r).2 = PRes.ok (JVal.jobj es)
      ∧ deleteObjectEmptyValues es = some es' ∧ p = JVal.jobj es' := by
  intro hm
  rcases h : getUpdatePayload cfgUser opts r with ⟨calls, res⟩
  have hns : ∀ c ∈ calls, isSubmitCall c = false := by
    have hall := getUpdatePayload_no_submit cfgUser opts r
    rw [h] at hall
    exact hall
  cases res with
  | err e =>
    simp only [updateCommand, h] at hm
    exact absurd (hns _ hm) (by simp [isSubmitCall])
  | crash =>
    simp only [updateCommand, h] at hm
    exact absurd (hns _ hm) (by simp [isSubmitCall])
  | ok payload =>
    cases payload with
    | jobj es =>
      cases hp : deleteObjectEmptyValues es with
      | none =>
        simp only [updateCommand, h, hp] at hm
        exact absurd (hns _ hm) (by simp [isSubmitCall])
      | some es' =>
        cases ur with
        | ok d =>
          simp only [updateCommand, h, hp, List.mem_append, List.mem_singleton] at hm
          rcases hm with hm | hm
          · exact absurd (hns _ hm) (by simp [isSubmitCall])
          · exact ⟨es, es', rfl, hp, by injection hm⟩
        | error e =>
          simp only [updateCommand, h, hp, List.mem_append, List.mem_singleton] at hm
          rcases hm with hm | hm
          · exact absurd (hns _ hm) (by simp [isSubmitCall])
          · exact ⟨es, es', rfl, hp, by injection hm⟩
    | jundef =>
      simp only [updateCommand, h] at hm
      exact absurd (hns _ hm) (by simp [isSubmitCall])
    | jnull =>
      simp only [updateCommand, h] at hm
      exact absurd (hns _ hm) (by simp [isSubmitCall])
    | jbool b =>
      simp only [updateCommand, h] at hm
      exact absurd (hns _ hm) (by simp [isSubmitCall])
    | jnum n =>
      simp only [updateCommand, h] at hm
      exact absurd (hns _ hm) (by simp [isSubmitCall])
    | jstr s =>
      simp only [updateCommand, h] at hm
      exact absurd (hns _ hm) (by simp [isSubmitCall])

/-- A successfully built payload always carries `fields.project` with the
fetched project's id. -/
theorem getUpdatePayload_ok_project {cfgUser : String} {opts : Options} {r : Remote}
    {payload : JVal} : (getUpdatePayload cfgUser opts r).2 = PRes.ok payload →
    ∃ F proj, payload = JVal.jobj [("fields", JVal.jobj F)]
      ∧ lookupKey F "project" = some (JVal.jobj [("id", JVal.jstr proj.id)])
      ∧ r.projectInfo = Except.ok proj := by
  intro hok
  obtain ⟨it, proj, comp, priority, version, _, hproj, _, _, _, hpay⟩ :=
    getUpdatePayload_ok hok
  exact ⟨_, proj, hpay, buildPayloadFields_lookup_project _ _ _ _ _ _ _ _ _,
    projectStep_ok_inv hproj⟩

/-- The payload pipeline evaluated on the shared concrete update run. -/
theorem getUpdatePayload_optsUpd :
    getUpdatePayload "bob" optsUpd sampleRemote
      = ([RCall.listIssueTypes, RCall.getProject, RCall.listComponents],
         PRes.ok payloadUpd) := by
  have h1 : (getUpdatePayload "bob" optsUpd sampleRemote).1
      = [RCall.listIssueTypes, RCall.getProject, RCall.listComponents] := rfl
  have h2 : (getUpdatePayload "bob" optsUpd sampleRemote).2 = PRes.ok payloadUpd := rfl
  rw [← h1, ← h2]

/-- A symbolic evaluation rule for a successful update run. -/
theorem updateCommand_eq {cfgUser : String} {opts : Options} {r : Remote}
    {ur : Except String JVal} {calls : List RCall} {es es' : List (String × JVal)}
    {d : JVal} (h : getUpdatePayload cfgUser opts r = (calls, PRes.ok (JVal.jobj es)))
    (hprune : deleteObjectEmptyValues es = some es') (hur : ur = Except.ok d) :
    updateCommand cfgUser opts r ur
      = (calls ++ [RCall.updateIssue (JVal.jobj es')], PRes.ok d) := by
  subst hur
  simp only [updateCommand, h, hprune]

/-- The concrete update run shared by the reporter and project
counterexamples, evaluated. -/
theorem updateCommand_optsUpd :
    updateCommand "bob" optsUpd sampleRemote (Except.ok (JVal.jobj []))
      = ([RCall.listIssueTypes, RCall.getProject, RCall.listComponents,
          RCall.updateIssue prunedUpd], PRes.ok (JVal.jobj [])) := by
  have hp : deleteObjectEmptyValues
      [("fields", JVal.jobj
        [("assignee", JVal.jobj [("name", JVal.jundef)]),
         ("components", JVal.jobj [("0", JVal.jobj [("id", JVal.jstr "11")])]),
         ("description", JVal.jstr ""),
         ("issuetype", JVal.jobj [("id", JVal.jstr "1")]),
         ("project", JVal.jobj [("id", JVal.jstr "10100")]),
         ("summary", JVal.jstr ""),
         ("reporter", JVal.jobj [("name", JVal.jstr "bob")])])]
      = some [("fields", JVal.jobj
        [("assignee", JVal.jobj []),
         ("components", JVal.jobj [("0", JVal.jobj [("id", JVal.jstr "11")])]),
         ("issuetype", JVal.jobj [("id", JVal.jstr "1")]),
         ("project", JVal.jobj [("id", JVal.jstr "10100")]),
         ("reporter", JVal.jobj [("name", JVal.jstr "bob")])])] := by
    simp [deleteObjectEmptyValues]
  exact updateCommand_eq getUpdatePayload_optsUpd hp rfl

/-! ## Lemmas about transition field expansion -/

theorem lookupKey_eq_none {es : List (String × JVal)} {k : String}
    (h : ∀ e ∈ es, e.1 ≠ k) : lookupKey es k = none := by
  unfold lookupKey
  rw [List.find?_eq_none.mpr]
  · rfl
  · intro e he
    simp [h e he]

theorem lookupKey_cons_pair (e : String × JVal) (rest : List (String × JVal)) (k : String) :
    lookupKey (e :: rest) k = if e.1 = k then some e.2 else lookupKey rest k := by
  obtain ⟨a, b⟩ := e
  exact lookupKey_cons a b rest k

theorem lookup_map_set {es : List (String × JVal)} {k : String} {v : JVal}
    (h : es.any (fun e => decide (e.1 = k)) = true) :
    lookupKey (es.map (fun e => if e.1 = k then (k, v) else e)) k = some v := by
  induction es with
  | nil => simp at h
  | cons e rest ih =>
    by_cases hk : e.1 = k
    · simp [List.map_cons, if_pos hk, lookupKey_cons]
    · have h' : rest.any (fun e => decide (e.1 = k)) = true := by
        simp only [List.any_cons, decide_eq_true_eq, hk, decide_False,
          Bool.false_or] at h
        exact h
      rw [List.map_cons, if_neg hk, lookupKey_cons_pair, if_neg hk, ih h']

theorem lookup_map_set_other {es : List (String × JVal)} {k' k : String} {v : JVal}
    (hk : k' ≠ k) :
    lookupKey (es.map (fun e => if e.1 = k' then (k', v) else e)) k = lookupKey es k := by
  induction es with
  | nil => rfl
  | cons e rest ih =>
    by_cases he : e.1 = k'
    · rw [List.map_cons, if_pos he, lookupKey_cons, if_neg hk, lookupKey_cons_pair,
        he, if_neg hk, ih]
    · rw [List.map_cons, if_neg he, lookupKey_cons_pair, lookupKey_cons_pair, ih]

theorem lookupKey_setKey_self (es : List (String × JVal)) (k : String) (v : JVal) :
    lookupKey (setKey es k v) k = some v := by
  unfold setKey
  split
  next hany => exact lookup_map_set hany
  next hany =>
    rw [lookupKey_append, lookupKey_eq_none, lookupKey_cons, if_pos rfl]
    · rfl
    · intro e he heq
      exact hany (List.any_eq_true.mpr ⟨e, he, by simp [heq]⟩)

theorem lookupKey_setKey_other (es : List (String × JVal)) {k' k : String} (v : JVal)
    (h : k' ≠ k) : lookupKey (setKey es k' v) k = lookupKey es k := by
  unfold setKey
  split
  · exact lookup_map_set_other h
  · rw [lookupKey_append, lookupKey_cons, if_neg h]
    simp [lookupKey]

theorem applyStaticConfigValues_lookup_notin (cfg : Option (List (String × CfgVal))) :
    ∀ (fields : List TransField) (acc : List (String × JVal)) (k : String),
      (∀ g ∈ fields, g.id ≠ k) →
      lookupKey (applyStaticConfigValues cfg fields acc) k = lookupKey acc k := by
  intro fields
  induction fields with
  | nil => intro acc k _; rfl
  | cons g rest ih =>
    intro acc k hk
    have hg : g.id ≠ k := hk g (List.mem_cons_self _ _)
    have hrest : ∀ x ∈ rest, x.id ≠ k := fun x hx => hk x (List.mem_cons_of_mem _ hx)
    simp only [applyStaticConfigValues]
    rw [ih _ _ hrest]
    unfold staticStep
    cases transitionConfigValue cfg g.name with
    | none => rfl
    | some cv =>
      cases cv with
      | sentinel => rfl
      | val v => exact lookupKey_setKey_other _ _ hg

theorem staticStep_lookup_other {cfg : Option (List (String × CfgVal))} {g : TransField}
    {acc : List (String × JVal)} {k : String} (h : g.id ≠ k) :
    lookupKey (staticStep cfg g acc) k = lookupKey acc k := by
  unfold staticStep
  cases transitionConfigValue cfg g.name with
  | none => rfl
  | some cv =>
    cases cv with
    | sentinel => rfl
    | val v => exact lookupKey_setKey_other _ _ h

theorem applyStaticConfigValues_lookup_mem (cfg : Option (List (String × CfgVal))) :
    ∀ (fields : List TransField) (acc : List (String × JVal)) (f : TransField),
      f ∈ fields → (fields.map TransField.id).Nodup →
      lookupKey (applyStaticConfigValues cfg fields acc) f.id
        = (match transitionConfigValue cfg f.name with
           | some (CfgVal.val v) => some v
           | _ => lookupKey acc f.id) := by
  intro fields
  induction fields with
  | nil => intro acc f hf; cases hf
  | cons g rest ih =>
    intro acc f hf hnd
    rw [List.map_cons, List.nodup_cons] at hnd
    rcases List.mem_cons.mp hf with rfl | hf'
    · have hrest : ∀ x ∈ rest, x.id ≠ f.id := by
        intro x hx heq
        exact hnd.1 (by rw [← heq]; exact List.mem_map_of_mem TransField.id hx)
      simp only [applyStaticConfigValues]
      rw [applyStaticConfigValues_lookup_notin cfg rest _ _ hrest]
      unfold staticStep
      cases transitionConfigValue cfg f.name with
      | none => rfl
      | some cv =>
        cases cv with
        | sentinel => rfl
        | val v => exact lookupKey_setKey_self _ _ _
    · have hne : g.id ≠ f.id := by
        intro heq
        exact hnd.1 (by rw [heq]; exact List.mem_map_of_mem TransField.id hf')
      simp only [applyStaticConfigValues]
      rw [ih _ f hf' hnd.2, staticStep_lookup_other hne]

theorem applyPromptedValues_lookup_notin (choose : TransField → String) :
    ∀ (fields : List TransField) (acc : List (String × JVal)) (k : String),
      (∀ g ∈ fields, g.id ≠ k) →
      lookupKey (applyPromptedValues choose fields acc) k = lookupKey acc k := by
  intro fields
  induction fields with
  | nil => intro acc k _; rfl
  | cons g rest ih =>
    intro acc k hk
    have hg : g.id ≠ k := hk g (List.mem_cons_self _ _)
    have hrest : ∀ x ∈ rest, x.id ≠ k := fun x hx => hk x (List.mem_cons_of_mem _ hx)
    simp only [applyPromptedValues]
    rw [ih _ _ hrest, lookupKey_setKey_other _ _ hg]

theorem applyPromptedValues_lookup_mem (choose : TransField → String) :
    ∀ (fields : List TransField) (acc : List (String × JVal)) (f : TransField),
      f ∈ fields → (fields.map TransField.id).Nodup →
      lookupKey (applyPromptedValues choose fields acc) f.id
        = some (wrapIfArray f (promptedFieldValue choose f)) := by
  intro fields
  induction fields with
  | nil => intro acc f hf; cases hf
  | cons g rest ih =>
    intro acc f hf hnd
    rw [List.map_cons, List.nodup_cons] at hnd
    rcases List.mem_cons.mp hf with rfl | hf'
    · have hrest : ∀ x ∈ rest, x.id ≠ f.id := by
        intro x hx heq
        exact hnd.1 (by rw [← heq]; exact List.mem_map_of_mem TransField.id hx)
      simp only [applyPromptedValues]
      rw [applyPromptedValues_lookup_notin choose rest _ _ hrest,
        lookupKey_setKey_self]
    · simp only [applyPromptedValues]
      exact ih _ f hf' hnd.2

/-- The filter predicate deciding whether a field is prompted. -/
theorem mem_promptsFor {cfg : Option (List (String × CfgVal))} {fa : List TransField}
    {f : TransField} :
    f ∈ promptsFor cfg fa ↔ f ∈ fa ∧ promptPred cfg f = true := by
  unfold promptsFor
  exact List.mem_filter

theorem promptsFor_id_nodup {cfg : Option (List (String × CfgVal))} {fa : List TransField}
    (h : (fa.map TransField.id).Nodup) :
    ((promptsFor cfg fa).map TransField.id).Nodup :=
  List.Nodup.sublist (List.Sublist.map TransField.id (List.filter_sublist fa)) h

/-! ## Claims -/

/-- C3: the empty-value pruning operation (`deleteObjectEmptyValues_`) is
idempotent: whenever it is defined (returns a result rather than throwing),
applying it again to the result is the identity; the result contains no key
whose value is `undefined` or the empty string; and it never removes a key
whose value is a nested object or array still containing non-empty leaves
(such a key survives, with its value pruned). -/
theorem spec_C3 :
    (∀ es es', deleteObjectEmptyValues es = some es' →
        deleteObjectEmptyValues es' = some es')
    ∧ (∀ es es' k, deleteObjectEmptyValues es = some es' →
        (k, JVal.jundef) ∉ es' ∧ (k, JVal.jstr "") ∉ es')
    ∧ (∀ es es' k vs, deleteObjectEmptyValues es = some es' →
        (k, JVal.jobj vs) ∈ es → hasNonEmptyLeafEntries vs = true →
        ∃ vs', (k, JVal.jobj vs') ∈ es') := by
  refine ⟨?_, ?_, ?_⟩
  · intro es es' h
    exact prunedEntries_fixed (deleteObjectEmptyValues_pruned h)
  · intro es es' k h
    constructor
    · intro hm
      have := prunedEntries_mem (deleteObjectEmptyValues_pruned h) hm
      simp [PrunedV] at this
    · intro hm
      have := prunedEntries_mem (deleteObjectEmptyValues_pruned h) hm
      simp [PrunedV] at this
  · intro es es' k vs h hm _
    exact deleteObjectEmptyValues_obj_key h hm

/-- Witness for C3 at a concrete tree. -/
theorem spec_C3_witness :
    deleteObjectEmptyValues
        [("a", JVal.jstr ""), ("b", JVal.jobj [("c", JVal.jundef), ("d", JVal.jstr "x")])]
      = some [("b", JVal.jobj [("d", JVal.jstr "x")])]
    ∧ deleteObjectEmptyValues [("b", JVal.jobj [("d", JVal.jstr "x")])]
      = some [("b", JVal.jobj [("d", JVal.jstr "x")])]
    ∧ (("a", JVal.jundef) ∉ [("b", JVal.jobj [("d", JVal.jstr "x")])]
       ∧ ("a", JVal.jstr "") ∉ [("b", JVal.jobj [("d", JVal.jstr "x")])])
    ∧ ∃ vs', ("b", JVal.jobj vs') ∈ [("b", JVal.jobj [("d", JVal.jstr "x")])] := by
  have h : deleteObjectEmptyValues
      [("a", JVal.jstr ""), ("b", JVal.jobj [("c", JVal.jundef), ("d", JVal.jstr "x")])]
      = some [("b", JVal.jobj [("d", JVal.jstr "x")])] := by
    simp [deleteObjectEmptyValues]
  exact ⟨h, spec_C3.1 _ _ h, spec_C3.2.1 _ _ "a" h,
    spec_C3.2.2 _ _ "b" [("c", JVal.jundef), ("d", JVal.jstr "x")] h (by simp)
      (by simp [hasNonEmptyLeafEntries, hasNonEmptyLeaf])⟩

/-- C10: applying `deleteObjectEmptyValues_` to any object one of whose
keys holds `null` throws a `TypeError` (`typeof null === 'object'`, so
`null` is recursed into and `Object.keys(null)` throws); on trees whose
values are non-null objects, arrays or scalars the walk is total. -/
theorem spec_C10 :
    (∀ es k, (k, JVal.jnull) ∈ es → deleteObjectEmptyValues es = none)
    ∧ (∀ es, NoNullEntries es = true → (deleteObjectEmptyValues es).isSome = true) :=
  ⟨fun _ _ hm => deleteObjectEmptyValues_null_mem hm,
   fun _ h => deleteObjectEmptyValues_noNull_isSome h⟩

/-- Witness for C10 at concrete trees. -/
theorem spec_C10_witness :
    deleteObjectEmptyValues [("a", JVal.jstr "v"), ("x", JVal.jnull)] = none
    ∧ (deleteObjectEmptyValues [("a", JVal.jstr ""), ("b", JVal.jobj [])]).isSome = true :=
  ⟨spec_C10.1 _ "x" (by simp), spec_C10.2 _ (by simp [NoNullEntries, NoNull])⟩

/-- C6: the assign action issues exactly one `PUT` request (no retry), and
the response status is interpreted against the fixed table: 204 success,
400 problem with the received user representation, 401 no permission, 404
exactly "Either the issue or the user does not exist.", anything else a
generic failure. -/
theorem spec_C6 :
    (∀ number name, (assignRequests number name).length = 1
        ∧ ∀ rq ∈ assignRequests number name, rq.method = "PUT")
    ∧ (∀ assignee, assignStatusMessage assignee 204 = "Issue assigned to " ++ assignee
        ∧ assignStatusMessage assignee 400
            = "There is a problem with the received user representation."
        ∧ assignStatusMessage assignee 401
            = "Calling user has no permission to assign the issue."
        ∧ assignStatusMessage assignee 404
            = "Either the issue or the user does not exist."
        ∧ ∀ s, s ≠ 204 → s ≠ 400 → s ≠ 401 → s ≠ 404 →
            assignStatusMessage assignee s
              = "There was an error trying to assign the issue.") := by
  refine ⟨fun number name => ⟨rfl, ?_⟩, fun assignee => ⟨rfl, rfl, rfl, rfl, ?_⟩⟩
  · intro rq hrq
    simp only [assignRequests, List.mem_singleton] at hrq
    simp [hrq]
  · intro s h1 h2 h3 h4
    unfold assignStatusMessage
    split <;> simp_all

/-- C1: when the transition list fetched for the issue's state contains no
element whose `name` is strictly equal to the requested name, the
transition command fails with exactly
`"<name>" is not a valid transition, try another action.` and issues no
`transitionIssue` call (no submission call at all beyond the listing); and
the transition selected when a match exists is the first element with
exactly equal name (no fuzzy matching). -/
theorem spec_C1 :
    (∀ (cfgT : String → Option (List (String × CfgVal))) (opts : Options) (name : String)
        (env : TransitionEnv) (l : List Transition),
        env.transitions = Except.ok l → (∀ t ∈ l, t.name ≠ name) →
        transitionCommand cfgT opts name env
          = ([RCall.listTransitions],
             PRes.err ("\"" ++ name ++ "\" is not a valid transition, try another action."))
        ∧ ∀ c ∈ (transitionCommand cfgT opts name env).1, isSubmitCall c = false)
    ∧ (∀ (l : List Transition) (name : String) (t0 : Transition),
        getTransitionByName (Except.ok l) name = some t0 ↔
          t0.name = name ∧ ∃ l1 l2, l = l1 ++ t0 :: l2 ∧ ∀ t ∈ l1, t.name ≠ name) := by
  constructor
  · intro cfgT opts name env l hl hno
    have hfind : getTransitionByName env.transitions name = none := by
      rw [hl]
      simp only [getTransitionByName, findFirstArrayValue]
      rw [List.find?_eq_none]
      intro t ht
      simp [hno t ht]
    constructor
    · simp only [transitionCommand, hfind]
    · intro c hc
      simp only [transitionCommand, hfind, List.mem_singleton] at hc
      subst hc
      rfl
  · intro l name t0
    simp only [getTransitionByName, findFirstArrayValue, List.find?_eq_some]
    constructor
    · rintro ⟨hp, l1, l2, heq, hall⟩
      refine ⟨by simpa using hp, l1, l2, heq, ?_⟩
      intro t ht
      simpa using hall t ht
    · rintro ⟨hp, l1, l2, heq, hall⟩
      refine ⟨by simpa using hp, l1, l2, heq, ?_⟩
      intro t ht
      simpa using hall t ht

/-- Witness for C1: requesting "start progress" against a listing holding
only "Start Progress" fails case-sensitively without submitting, and the
exact-match direction selects the sole matching transition. -/
theorem spec_C1_witness :
    (transitionCommand (fun _ => none) emptyOptions "start progress" sampleTransEnv
       = ([RCall.listTransitions],
          PRes.err "\"start progress\" is not a valid transition, try another action.")
     ∧ ∀ c ∈ (transitionCommand (fun _ => none) emptyOptions "start progress"
          sampleTransEnv).1, isSubmitCall c = false)
    ∧ getTransitionByName (Except.ok [tStartProgress]) "Start Progress"
        = some tStartProgress := by
  constructor
  · exact spec_C1.1 (fun _ => none) emptyOptions "start progress" sampleTransEnv
      [tStartProgress] rfl (by decide)
  · exact (spec_C1.2 [tStartProgress] "Start Progress" tStartProgress).mpr
      ⟨rfl, [], [], rfl, by simp⟩

/-- C4: when the priority (resp. version) option is unspecified, the
payload pipeline issues no priority-listing (resp. version-listing) call
and the built payload has no `fields.priority` (resp. `fields.versions`)
key; when the option is supplied and resolves, the payload carries the
resolved id (versions as a one-element array). -/
theorem spec_C4 :
    (∀ (cfgUser : String) (opts : Options) (r : Remote), opts.priority = none →
        (∀ c ∈ (getUpdatePayload cfgUser opts r).1, isListPriorities c = false)
        ∧ ∀ payload, (getUpdatePayload cfgUser opts r).2 = PRes.ok payload →
            fieldOf payload "priority" = none)
    ∧ (∀ (cfgUser : String) (opts : Options) (r : Remote), opts.version = none →
        (∀ c ∈ (getUpdatePayload cfgUser opts r).1, isListVersions c = false)
        ∧ ∀ payload, (getUpdatePayload cfgUser opts r).2 = PRes.ok payload →
            fieldOf payload "versions" = none)
    ∧ (∀ (cfgUser : String) (opts : Options) (r : Remote) (p : Entity) (payload : JVal),
        resolveByName r.priorities opts.priority = some p →
        (getUpdatePayload cfgUser opts r).2 = PRes.ok payload →
        truthy opts.priority = true →
        fieldOf payload "priority" = some (JVal.jobj [("id", JVal.jstr p.id)]))
    ∧ (∀ (cfgUser : String) (opts : Options) (r : Remote) (v : Entity) (payload : JVal),
        resolveByName r.versions opts.version = some v →
        (getUpdatePayload cfgUser opts r).2 = PRes.ok payload →
        truthy opts.version = true →
        fieldOf payload "versions"
          = some (JVal.jobj [("0", JVal.jobj [("id", JVal.jstr v.id)])])) := by
  refine ⟨?_, ?_, ?_, ?_⟩
  · intro cfgUser opts r hp
    have hstep : priorityStep r opts.priority = ([], PRes.ok none) := by rw [hp]; rfl
    constructor
    · intro c hc
      rcases getUpdatePayload_calls_sub cfgUser opts r c hc with h | h | h | h | h
      · rw [h]; rfl
      · rcases projectStep_calls opts r with he | he <;> rw [he] at h
        · cases h
        · rw [List.mem_singleton.mp h]; rfl
      · rw [h]; rfl
      · rw [hstep] at h; cases h
      · rcases versionStep_calls r opts.version with he | he <;> rw [he] at h
        · cases h
        · rw [List.mem_singleton.mp h]; rfl
    · intro payload hok
      obtain ⟨it, proj, comp, priority, version, _, _, _, hprio, _, hpay⟩ :=
        getUpdatePayload_ok hok
      rw [hstep] at hprio
      cases hprio
      rw [hpay, fieldOf_payload, buildPayloadFields_lookup_priority]
      rfl
  · intro cfgUser opts r hv
    have hstep : versionStep r opts.version = ([], PRes.ok none) := by rw [hv]; rfl
    constructor
    · intro c hc
      rcases getUpdatePayload_calls_sub cfgUser opts r c hc with h | h | h | h | h
      · rw [h]; rfl
      · rcases projectStep_calls opts r with he | he <;> rw [he] at h
        · cases h
        · rw [List.mem_singleton.mp h]; rfl
      · rw [h]; rfl
      · rcases priorityStep_calls r opts.priority with he | he <;> rw [he] at h
        · cases h
        · rw [List.mem_singleton.mp h]; rfl
      · rw [hstep] at h; cases h
    · intro payload hok
      obtain ⟨it, proj, comp, priority, version, _, _, _, _, hver, hpay⟩ :=
        getUpdatePayload_ok hok
      rw [hstep] at hver
      cases hver
      rw [hpay, fieldOf_payload, buildPayloadFields_lookup_versions]
      rfl
  · intro cfgUser opts r p payload hres hok htr
    obtain ⟨it, proj, comp, priority, version, _, _, _, hprio, _, hpay⟩ :=
      getUpdatePayload_ok hok
    have hstep : priorityStep r opts.priority = ([RCall.listPriorities], PRes.ok (some p)) := by
      simp [priorityStep, htr, hres]
    rw [hstep] at hprio
    cases hprio
    rw [hpay, fieldOf_payload, buildPayloadFields_lookup_priority]
    rfl
  · intro cfgUser opts r v payload hres hok htr
    obtain ⟨it, proj, comp, priority, version, _, _, _, _, hver, hpay⟩ :=
      getUpdatePayload_ok hok
    have hstep : versionStep r opts.version = ([RCall.listVersions], PRes.ok (some v)) := by
      simp [versionStep, htr, hres]
    rw [hstep] at hver
    cases hver
    rw [hpay, fieldOf_payload, buildPayloadFields_lookup_versions]
    rfl

/-- Witness for C4: a create run with priority/version unspecified makes
no priority/version listing call and omits both fields; supplying both
yields the resolved ids. -/
theorem spec_C4_witness :
    (∀ c ∈ (getUpdatePayload "joe" optsC4a sampleRemote).1, isListPriorities c = false)
    ∧ (∀ c ∈ (getUpdatePayload "joe" optsC4a sampleRemote).1, isListVersions c = false)
    ∧ fieldOf payloadC4a "priority" = none
    ∧ fieldOf payloadC4a "versions" = none
    ∧ fieldOf payloadC4b "priority" = some (JVal.jobj [("id", JVal.jstr "4")])
    ∧ fieldOf payloadC4b "versions"
        = some (JVal.jobj [("0", JVal.jobj [("id", JVal.jstr "7")])]) :=
  ⟨(spec_C4.1 "joe" optsC4a sampleRemote rfl).1,
   (spec_C4.2.1 "joe" optsC4a sampleRemote rfl).1,
   (spec_C4.1 "joe" optsC4a sampleRemote rfl).2 payloadC4a rfl,
   (spec_C4.2.1 "joe" optsC4a sampleRemote rfl).2 payloadC4a rfl,
   spec_C4.2.2.1 "joe" optsC4b sampleRemote ⟨"Minor", "4"⟩ payloadC4b rfl rfl rfl,
   spec_C4.2.2.2 "joe" optsC4b sampleRemote ⟨"0.1.0", "7"⟩ payloadC4b rfl rfl rfl⟩

/-- C5: a `new` run with a project and title but no component (neither
supplied nor configured as a default) fails with exactly
`No component found, try --component "JavaScript".` before any
`addNewIssue` call; and in general a payload-stage failure stops the
pipeline, so the command issues no call beyond those of the failing
payload stage. -/
theorem spec_C5 :
    (∀ (cfgUser : String) (opts : Options) (d : JiraDefaults) (r : Remote)
        (cr : Except String Entity) (it p : Entity),
        opts.isNew = true → truthy opts.project = true → opts.title.isSome = true →
        opts.component = none → d.component = none →
        resolveByName r.issueTypes (applyDefaults opts d).type = some it →
        r.projectInfo = Except.ok p →
        newCommand cfgUser (applyDefaults opts d) r cr
          = ([RCall.listIssueTypes, RCall.getProject, RCall.listComponents],
             PRes.err "No component found, try --component \"JavaScript\".")
        ∧ ∀ c ∈ (newCommand cfgUser (applyDefaults opts d) r cr).1, isSubmitCall c = false)
    ∧ (∀ (cfgUser : String) (opts : Options) (r : Remote) (cr : Except String Entity)
        (e : String), (getUpdatePayload cfgUser opts r).2 = PRes.err e →
        (newCommand cfgUser opts r cr).1 = (getUpdatePayload cfgUser opts r).1)
    ∧ (∀ (cfgUser : String) (opts : Options) (r : Remote) (ur : Except String JVal)
        (e : String), (getUpdatePayload cfgUser opts r).2 = PRes.err e →
        (updateCommand cfgUser opts r ur).1 = (getUpdatePayload cfgUser opts r).1) := by
  refine ⟨?_, ?_, ?_⟩
  · intro cfgUser opts d r cr it p hnew _ _ hcomp hdcomp hit hproj
    have hcomp' : (applyDefaults opts d).component = none := by
      simp [applyDefaults, hcomp, truthy, hdcomp]
    have hstep : projectStep (applyDefaults opts d) r = ([RCall.getProject], PRes.ok (some p)) := by
      simp [projectStep, applyDefaults, hnew, hproj]
    have hres : resolveByName r.components (applyDefaults opts d).component = none := by
      rw [hcomp']
      exact resolveByName_none _
    have hmain : getUpdatePayload cfgUser (applyDefaults opts d) r
        = ([RCall.listIssueTypes, RCall.getProject, RCall.listComponents],
           PRes.err "No component found, try --component \"JavaScript\".") := by
      simp only [getUpdatePayload, hit, hstep, hres]
      rfl
    constructor
    · simp only [newCommand, hmain]
    · intro c hc
      simp only [newCommand, hmain] at hc
      simp only [List.mem_cons, List.mem_singleton, List.not_mem_nil, or_false] at hc
      rcases hc with h | h | h <;> rw [h] <;> rfl
  · intro cfgUser opts r cr e he
    rcases h : getUpdatePayload cfgUser opts r with ⟨calls, res⟩
    rw [h] at he
    simp only at he
    simp only [newCommand, h]
    cases res with
    | ok payload => exact absurd he (by simp)
    | err e0 => rfl
    | crash => rfl
  · intro cfgUser opts r ur e he
    rcases h : getUpdatePayload cfgUser opts r with ⟨calls, res⟩
    rw [h] at he
    simp only at he
    simp only [updateCommand, h]
    cases res with
    | ok payload => exact absurd he (by simp)
    | err e0 => rfl
    | crash => rfl

/-- Witness for C5 at a concrete create run lacking a component. -/
theorem spec_C5_witness :
    newCommand "joe" (applyDefaults optsC5 ⟨none, none, none⟩) sampleRemote
        (Except.ok ⟨"LPS-1", "99"⟩)
      = ([RCall.listIssueTypes, RCall.getProject, RCall.listComponents],
         PRes.err "No component found, try --component \"JavaScript\".")
    ∧ ∀ c ∈ (newCommand "joe" (applyDefaults optsC5 ⟨none, none, none⟩) sampleRemote
        (Except.ok ⟨"LPS-1", "99"⟩)).1, isSubmitCall c = false :=
  spec_C5.1 "joe" optsC5 ⟨none, none, none⟩ sampleRemote (Except.ok ⟨"LPS-1", "99"⟩)
    ⟨"Bug", "1"⟩ ⟨"LPS", "10100"⟩ rfl rfl rfl rfl rfl rfl rfl

/-- C7 counterexample: an update run (`options.new` false) with acting
user "bob" and `--reporter bob` submits a payload whose
`fields.reporter.name` is "bob" — the claim that update payloads contain
no reporter field is false on the code
(`!options.new || options.reporter !== jiraConfig.user` is true for every
update). -/
theorem spec_C7_counterexample :
    (firstUpdatePayload
        (updateCommand "bob" optsUpd sampleRemote (Except.ok (JVal.jobj []))).1).bind
      (fun p => fieldOf p "reporter")
    = some (JVal.jobj [("name", JVal.jstr "bob")]) := by
  rw [updateCommand_optsUpd]
  rfl

/-- C7 (amended): `fields.reporter.name` is included in a built payload
exactly when a truthy reporter option is supplied and either the command
is not create or the reporter differs from the acting configured user; in
particular an update payload carries the reporter whenever one is
supplied, while a create payload omits it when it equals the acting
user. -/
theorem spec_C7 :
    ∀ (cfgUser : String) (opts : Options) (r : Remote) (payload : JVal),
      (getUpdatePayload cfgUser opts r).2 = PRes.ok payload →
      fieldOf payload "reporter"
        = (if truthy opts.reporter && (!opts.isNew || decide (opts.reporter ≠ some cfgUser))
           then some (JVal.jobj [("name", optJStr opts.reporter)]) else none) := by
  intro cfgUser opts r payload hok
  obtain ⟨it, proj, comp, priority, version, _, _, _, _, _, hpay⟩ :=
    getUpdatePayload_ok hok
  rw [hpay, fieldOf_payload, buildPayloadFields_lookup_reporter]

/-- Witness for C7 at the concrete update run of the counterexample. -/
theorem spec_C7_witness :
    fieldOf payloadUpd "reporter" = some (JVal.jobj [("name", JVal.jstr "bob")]) := by
  have h := spec_C7 "bob" optsUpd sampleRemote payloadUpd rfl
  simpa [optsUpd, emptyOptions, truthy, optJStr] using h

/-- C8 counterexample: the same concrete update run submits a payload
whose `fields.project.id` is the resolved project id — the claim that the
update payload contains no project field is false on the code (the
payload literal in `getUpdatePayload_` always carries
`project: {id: project.id}` and `update` never removes it). -/
theorem spec_C8_counterexample :
    (firstUpdatePayload
        (updateCommand "bob" optsUpd sampleRemote (Except.ok (JVal.jobj []))).1).bind
      (fun p => fieldOf p "project")
    = some (JVal.jobj [("id", JVal.jstr "10100")]) := by
  rw [updateCommand_optsUpd]
  rfl

/-- C8 (amended): `fields.project.id` is included in every successfully
built payload, for update as well as create — every successfully built
payload carries the fetched project's id, and every payload the update
command submits still has a `fields.project` key (pruning can empty its
value but never deletes the key). -/
theorem spec_C8 :
    (∀ (cfgUser : String) (opts : Options) (r : Remote) (payload : JVal) (proj : Entity),
        (getUpdatePayload cfgUser opts r).2 = PRes.ok payload →
        r.projectInfo = Except.ok proj →
        fieldOf payload "project" = some (JVal.jobj [("id", JVal.jstr proj.id)]))
    ∧ (∀ (cfgUser : String) (opts : Options) (r : Remote) (ur : Except String JVal)
        (p : JVal), RCall.updateIssue p ∈ (updateCommand cfgUser opts r ur).1 →
        (fieldOf p "project").isSome = true) := by
  constructor
  · intro cfgUser opts r payload proj hok hproj
    obtain ⟨F, proj', hpay, hlook, hproj'⟩ := getUpdatePayload_ok_project hok
    rw [hproj] at hproj'
    cases hproj'
    rw [hpay, fieldOf_payload]
    exact hlook
  · intro cfgUser opts r ur p hm
    obtain ⟨es, es', hok, hp, rfl⟩ := updateCommand_submit_payload hm
    obtain ⟨F, proj, hpay, hlook, _⟩ := getUpdatePayload_ok_project hok
    obtain rfl : es = [("fields", JVal.jobj F)] := by injection hpay
    obtain ⟨F', hF, rfl⟩ := deleteObjectEmptyValues_fields_inv hp
    obtain ⟨vs', hvs⟩ := deleteObjectEmptyValues_lookup_obj hF hlook
    rw [fieldOf_payload, hvs]
    rfl

/-- Witness for C8 at the concrete update run of the counterexample. -/
theorem spec_C8_witness :
    fieldOf payloadUpd "project" = some (JVal.jobj [("id", JVal.jstr "10100")])
    ∧ (fieldOf prunedUpd "project").isSome = true :=
  ⟨spec_C8.1 "bob" optsUpd sampleRemote payloadUpd ⟨"LPS", "10100"⟩ rfl rfl,
   spec_C8.2 "bob" optsUpd sampleRemote (Except.ok (JVal.jobj [])) prunedUpd
     (by rw [updateCommand_optsUpd]; simp)⟩

/-- C9: every payload the update command passes to `updateIssue` has been
pruned — it contains no key (at any depth) whose value is `undefined` or
the empty string; the create command applies no pruning, so the payload it
passes to `addNewIssue` can carry empty-string fields (here: empty
`description` and `summary` because `message` and `title` were unset). -/
theorem spec_C9 :
    (∀ (cfgUser : String) (opts : Options) (r : Remote) (ur : Except String JVal)
        (p : JVal), RCall.updateIssue p ∈ (updateCommand cfgUser opts r ur).1 →
        PrunedV p = true)
    ∧ ((firstCreatePayload
          (newCommand "joe" optsC4a sampleRemote (Except.ok ⟨"LPS-2", "100"⟩)).1).bind
         (fun p => fieldOf p "description") = some (JVal.jstr "")
       ∧ (firstCreatePayload
          (newCommand "joe" optsC4a sampleRemote (Except.ok ⟨"LPS-2", "100"⟩)).1).bind
         (fun p => fieldOf p "summary") = some (JVal.jstr "")) := by
  refine ⟨?_, rfl, rfl⟩
  intro cfgUser opts r ur p hm
  obtain ⟨es, es', hok, hp, rfl⟩ := updateCommand_submit_payload hm
  have := deleteObjectEmptyValues_pruned hp
  simp [PrunedV, this]

/-- Witness for C9 at the shared concrete update run. -/
theorem spec_C9_witness : PrunedV prunedUpd = true :=
  spec_C9.1 "bob" optsUpd sampleRemote (Except.ok (JVal.jobj [])) prunedUpd
    (by rw [updateCommand_optsUpd]; simp)

/-- C2: for every field of a matched transition's schema (field ids
distinct): a static per-transition configured value that is not the
prompt sentinel (the literal `true`) is written under the field id with
no prompt; otherwise, if the field is required or the configured value is
the sentinel, exactly one prompt is issued and `fields[fieldId]` is the
chosen allowed value, wrapped in a one-element array exactly when
`schema.type` is `"array"` (`wrapIfArray`); otherwise the field is left
unset (the entry under its id is whatever the payload already held). -/
theorem spec_C2 :
    ∀ (cfg : Option (List (String × CfgVal))) (fieldsArray : List TransField)
      (choose : TransField → String) (fields0 : List (String × JVal)) (f : TransField),
      f ∈ fieldsArray → (fieldsArray.map TransField.id).Nodup →
      ((∀ v : JVal, transitionConfigValue cfg f.name = some (CfgVal.val v) →
          lookupKey (expandTransitionFields cfg fieldsArray choose fields0).1 f.id = some v
          ∧ f.id ∉ (expandTransitionFields cfg fieldsArray choose fields0).2)
       ∧ ((transitionConfigValue cfg f.name = some CfgVal.sentinel
            ∨ (transitionConfigValue cfg f.name = none ∧ f.required = true)) →
          (expandTransitionFields cfg fieldsArray choose fields0).2.count f.id = 1
          ∧ lookupKey (expandTransitionFields cfg fieldsArray choose fields0).1 f.id
              = some (wrapIfArray f (promptedFieldValue choose f)))
       ∧ (transitionConfigValue cfg f.name = none → f.required = false →
          lookupKey (expandTransitionFields cfg fieldsArray choose fields0).1 f.id
              = lookupKey fields0 f.id
          ∧ f.id ∉ (expandTransitionFields cfg fieldsArray choose fields0).2)) := by
  intro cfg fa choose fields0 f hf hnd
  have hinj := List.inj_on_of_nodup_map hnd
  have hprompted_notin : promptPred cfg f = false →
      (∀ g ∈ promptsFor cfg fa, g.id ≠ f.id) ∧
      f.id ∉ (promptsFor cfg fa).map TransField.id := by
    intro hpred
    have hnotmem : f ∉ promptsFor cfg fa := by
      intro hmem
      rw [(mem_promptsFor.mp hmem).2] at hpred
      cases hpred
    have hids : ∀ g ∈ promptsFor cfg fa, g.id ≠ f.id := by
      intro g hg heq
      have hgfa := (mem_promptsFor.mp hg).1
      have hgf : g = f := hinj hgfa hf heq
      exact hnotmem (hgf ▸ hg)
    refine ⟨hids, ?_⟩
    intro hmem
    obtain ⟨g, hg, hgid⟩ := List.mem_map.mp hmem
    exact hids g hg hgid
  refine ⟨?_, ?_, ?_⟩
  · intro v hv
    have hpred : promptPred cfg f = false := by
      unfold promptPred
      rw [hv]
    obtain ⟨hids, hnotid⟩ := hprompted_notin hpred
    refine ⟨?_, hnotid⟩
    show lookupKey (applyPromptedValues choose (promptsFor cfg fa)
        (applyStaticConfigValues cfg fa fields0)) f.id = some v
    rw [applyPromptedValues_lookup_notin choose _ _ _ hids,
      applyStaticConfigValues_lookup_mem cfg fa fields0 f hf hnd, hv]
  · intro hb
    have hpred : promptPred cfg f = true := by
      unfold promptPred
      rcases hb with h | ⟨h1, h2⟩
      · rw [h]
      · rw [h1]
        exact h2
    have hmem : f ∈ promptsFor cfg fa := mem_promptsFor.mpr ⟨hf, hpred⟩
    exact ⟨List.count_eq_one_of_mem (promptsFor_id_nodup hnd)
        (List.mem_map_of_mem _ hmem),
      applyPromptedValues_lookup_mem choose _ _ f hmem (promptsFor_id_nodup hnd)⟩
  · intro hc hreq
    have hpred : promptPred cfg f = false := by
      unfold promptPred
      rw [hc]
      exact hreq
    obtain ⟨hids, hnotid⟩ := hprompted_notin hpred
    refine ⟨?_, hnotid⟩
    show lookupKey (applyPromptedValues choose (promptsFor cfg fa)
        (applyStaticConfigValues cfg fa fields0)) f.id = lookupKey fields0 f.id
    rw [applyPromptedValues_lookup_notin choose _ _ _ hids,
      applyStaticConfigValues_lookup_mem cfg fa fields0 f hf hnd, hc]

/-- Witness for C2 on a concrete transition schema: `fldA` has a static
configured value, `fldB` is required with no configuration (prompted,
array-typed), `fldC` is optional with no configuration (left unset). -/
theorem spec_C2_witness :
    (lookupKey (expandTransitionFields cfgC2 [fldA, fldB, fldC]
        (fun _ => "0.2.0") []).1 "f1" = some (JVal.jstr "Fixed")
     ∧ "f1" ∉ (expandTransitionFields cfgC2 [fldA, fldB, fldC] (fun _ => "0.2.0") []).2)
    ∧ ((expandTransitionFields cfgC2 [fldA, fldB, fldC]
        (fun _ => "0.2.0") []).2.count "f2" = 1
       ∧ lookupKey (expandTransitionFields cfgC2 [fldA, fldB, fldC]
          (fun _ => "0.2.0") []).1 "f2"
         = some (JVal.jobj [("0", entityJVal ⟨"0.2.0", "20"⟩)]))
    ∧ (lookupKey (expandTransitionFields cfgC2 [fldA, fldB, fldC]
        (fun _ => "0.2.0") []).1 "f3" = lookupKey [] "f3"
       ∧ "f3" ∉ (expandTransitionFields cfgC2 [fldA, fldB, fldC] (fun _ => "0.2.0") []).2) := by
  have hnd : (([fldA, fldB, fldC].map TransField.id)).Nodup := by
    simp [fldA, fldB, fldC]
  refine ⟨?_, ?_, ?_⟩
  · exact (spec_C2 cfgC2 [fldA, fldB, fldC] (fun _ => "0.2.0") [] fldA
      (by simp) hnd).1 (JVal.jstr "Fixed") rfl
  · have h := (spec_C2 cfgC2 [fldA, fldB, fldC] (fun _ => "0.2.0") [] fldB
      (by simp) hnd).2.1 (Or.inr ⟨rfl, rfl⟩)
    exact h
  · exact (spec_C2 cfgC2 [fldA, fldB, fldC] (fun _ => "0.2.0") [] fldC
      (by simp) hnd).2.2 rfl rfl

/-- Witness for C6 at a concrete issue, assignee and status. -/
theorem spec_C6_witness :
    (assignRequests "LPS-123" "joe").length = 1
    ∧ (∀ rq ∈ assignRequests "LPS-123" "joe", rq.method = "PUT")
    ∧ assignStatusMessage "joe" 404 = "Either the issue or the user does not exist."
    ∧ assignStatusMessage "joe" 500 = "There was an error trying to assign the issue." :=
  ⟨(spec_C6.1 "LPS-123" "joe").1, (spec_C6.1 "LPS-123" "joe").2,
   (spec_C6.2 "joe").2.2.2.1,
   (spec_C6.2 "joe").2.2.2.2 500 (by decide) (by decide) (by decide) (by decide)⟩

end GhJira
